import Mathlib

/-!
Verification of the streaming completion aggregator of
`databricks-app/llm_utils.py` (and the fence-stripping step of
`backend/llm_utils.py`).  Python strings are modelled as Lean `String`
(a wrapper around `List Char`), Python `dict`s produced by `json.loads`
as ordered association lists with unique keys, and the `json` standard
library's `loads` as an executable recursive-descent parser returning
`Except` (the `.error` case models a raised `json.JSONDecodeError`).
-/

/-- Characters stripped by Python's `str.strip()` (ASCII fragment). -/
def isPyWs (c : Char) : Bool :=
  c == ' ' || c == '\t' || c == '\n' || c == '\r' || c == '\x0b' || c == '\x0c'

/-- Python `s.strip()`. -/
def pyStrip (s : String) : String :=
  ⟨((s.data.dropWhile isPyWs).reverse.dropWhile isPyWs).reverse⟩

/-- `charsStarts s p` holds when `p` is a prefix of `s`. -/
def charsStarts : List Char → List Char → Bool
  | _, [] => true
  | [], _ :: _ => false
  | c :: cs, p :: ps => c == p && charsStarts cs ps

/-- Python `s.startswith(p)`. -/
def pyStartswith (s p : String) : Bool := charsStarts s.data p.data

/-- Python `s.endswith(p)`. -/
def pyEndswith (s p : String) : Bool := charsStarts s.data.reverse p.data.reverse

/-- Python `s[a:-b]` (for `b > 0`): drop `a` characters at the front and
`b` at the back, clamping to the empty string. -/
def pySlice (s : String) (a b : Nat) : String :=
  ⟨((s.data.drop a).reverse.drop b).reverse⟩

/-- JSON values as produced by `json.loads`.  Numbers keep their lexeme;
objects are insertion-ordered association lists with unique keys, the
model of a Python `dict`. -/
inductive JValue where
  | null : JValue
  | bool (b : Bool) : JValue
  | num (lexeme : String) : JValue
  | str (s : String) : JValue
  | arr (items : List JValue) : JValue
  | obj (fields : List (String × JValue)) : JValue
deriving Repr

/-- Python `d[k] = v` on a `dict`: replace the value in place when the key
exists, append otherwise. -/
def dictSet (kvs : List (String × JValue)) (k : String) (v : JValue) :
    List (String × JValue) :=
  if (kvs.find? (fun p => p.1 == k)).isSome then
    kvs.map (fun p => if p.1 == k then (k, v) else p)
  else
    kvs ++ [(k, v)]

/-- Python `d.get(k)` on a `dict`. -/
def dictGet (kvs : List (String × JValue)) (k : String) : Option JValue :=
  (kvs.find? (fun p => p.1 == k)).map (·.2)

/-- JSON insignificant whitespace, skipped between tokens. -/
def skipWs (l : List Char) : List Char :=
  l.dropWhile (fun c => c == ' ' || c == '\t' || c == '\n' || c == '\r')

/-- Append one decoded character in front of a string-body parse result. -/
def consE (c : Char) :
    Except String (List Char × List Char) → Except String (List Char × List Char)
  | .ok (s, r) => .ok (c :: s, r)
  | .error e => .error e

/-- Value of a hexadecimal digit. -/
def hexDigitVal (c : Char) : Option Nat :=
  if c.isDigit then some (c.toNat - 48)
  else if 'a' ≤ c && c ≤ 'f' then some (c.toNat - 87)
  else if 'A' ≤ c && c ≤ 'F' then some (c.toNat - 55)
  else none

/-- Body of a JSON string literal, after the opening quote; returns the
decoded characters and the input after the closing quote. -/
def parseStrBody : List Char → Except String (List Char × List Char)
  | [] => .error "Unterminated string"
  | '"' :: rest => .ok ([], rest)
  | '\\' :: '"' :: r => consE '"' (parseStrBody r)
  | '\\' :: '\\' :: r => consE '\\' (parseStrBody r)
  | '\\' :: '/' :: r => consE '/' (parseStrBody r)
  | '\\' :: 'b' :: r => consE '\x08' (parseStrBody r)
  | '\\' :: 'f' :: r => consE '\x0c' (parseStrBody r)
  | '\\' :: 'n' :: r => consE '\n' (parseStrBody r)
  | '\\' :: 'r' :: r => consE '\r' (parseStrBody r)
  | '\\' :: 't' :: r => consE '\t' (parseStrBody r)
  | '\\' :: 'u' :: a :: b :: c :: d :: r =>
    match hexDigitVal a, hexDigitVal b, hexDigitVal c, hexDigitVal d with
    | some ha, some hb, some hc, some hd =>
      consE (Char.ofNat (((ha * 16 + hb) * 16 + hc) * 16 + hd)) (parseStrBody r)
    | _, _, _, _ => .error "Invalid unicode escape"
  | '\\' :: _ => .error "Invalid escape"
  | c :: rest => consE c (parseStrBody rest)

/-- One or more decimal digits, with the rest of the input. -/
def digits1 (l : List Char) : Option (List Char × List Char) :=
  let ds := l.takeWhile Char.isDigit
  if ds.isEmpty then none else some (ds, l.dropWhile Char.isDigit)

/-- Integer part of a JSON number: `0`, or a nonzero digit followed by
digits (leading zeros are not absorbed, as in CPython's number regex). -/
def parseIntLexeme : List Char → Option (List Char × List Char)
  | '0' :: rest => some (['0'], rest)
  | l => digits1 l

/-- Exponent part `e[+|-]digits` after the mark; when the digits are
missing the exponent is not consumed, mirroring the regex. -/
def expAfterMark (mark : Char) (r orig : List Char) : List Char × List Char :=
  let signAndRest : List Char × List Char :=
    match r with
    | '+' :: rr => (['+'], rr)
    | '-' :: rr => (['-'], rr)
    | _ => ([], r)
  match digits1 signAndRest.2 with
  | some (ds, rr) => (mark :: (signAndRest.1 ++ ds), rr)
  | none => ([], orig)

/-- A JSON number token, kept as its lexeme. -/
def parseNumber (l : List Char) : Except String (JValue × List Char) :=
  let signAndRest : List Char × List Char :=
    match l with
    | '-' :: r => (['-'], r)
    | _ => ([], l)
  match parseIntLexeme signAndRest.2 with
  | none => .error "Expecting value"
  | some (ip, r1) =>
    let fracAndRest : List Char × List Char :=
      match r1 with
      | '.' :: r =>
        match digits1 r with
        | some (ds, rr) => ('.' :: ds, rr)
        | none => ([], r1)
      | _ => ([], r1)
    let expAndRest : List Char × List Char :=
      match fracAndRest.2 with
      | 'e' :: r => expAfterMark 'e' r fracAndRest.2
      | 'E' :: r => expAfterMark 'E' r fracAndRest.2
      | _ => ([], fracAndRest.2)
    .ok (.num ⟨signAndRest.1 ++ ip ++ fracAndRest.1 ++ expAndRest.1⟩, expAndRest.2)

mutual

/-- One JSON value, with fuel bounding the nesting depth. -/
def parseVal : Nat → List Char → Except String (JValue × List Char)
  | 0, _ => .error "Expecting value"
  | fuel + 1, l =>
    match skipWs l with
    | [] => .error "Expecting value"
    | '{' :: rest => parseObjStart fuel rest
    | '[' :: rest => parseArrStart fuel rest
    | '"' :: rest =>
      match parseStrBody rest with
      | .ok (cs, r) => .ok (.str ⟨cs⟩, r)
      | .error e => .error e
    | 't' :: rest =>
      if charsStarts rest ['r', 'u', 'e'] then .ok (.bool true, rest.drop 3)
      else .error "Expecting value"
    | 'f' :: rest =>
      if charsStarts rest ['a', 'l', 's', 'e'] then .ok (.bool false, rest.drop 4)
      else .error "Expecting value"
    | 'n' :: rest =>
      if charsStarts rest ['u', 'l', 'l'] then .ok (.null, rest.drop 3)
      else .error "Expecting value"
    | c :: rest =>
      if c == '-' || c.isDigit then parseNumber (c :: rest)
      else .error "Expecting value"

/-- A JSON object, after the opening brace. -/
def parseObjStart : Nat → List Char → Except String (JValue × List Char)
  | 0, _ => .error "Expecting value"
  | fuel + 1, l =>
    match skipWs l with
    | '}' :: rest => .ok (.obj [], rest)
    | _ => parseMembers fuel [] l

/-- Members of a JSON object; duplicate keys overwrite as in a `dict`. -/
def parseMembers :
    Nat → List (String × JValue) → List Char → Except String (JValue × List Char)
  | 0, _, _ => .error "Expecting value"
  | fuel + 1, acc, l =>
    match skipWs l with
    | '"' :: rest =>
      match parseStrBody rest with
      | .error e => .error e
      | .ok (kcs, r1) =>
        match skipWs r1 with
        | ':' :: r2 =>
          match parseVal fuel r2 with
          | .error e => .error e
          | .ok (v, r3) =>
            match skipWs r3 with
            | ',' :: r4 => parseMembers fuel (dictSet acc ⟨kcs⟩ v) r4
            | '}' :: r4 => .ok (.obj (dictSet acc ⟨kcs⟩ v), r4)
            | _ => .error "Expecting comma delimiter"
        | _ => .error "Expecting colon delimiter"
    | _ => .error "Expecting property name enclosed in double quotes"

/-- A JSON array, after the opening bracket. -/
def parseArrStart : Nat → List Char → Except String (JValue × List Char)
  | 0, _ => .error "Expecting value"
  | fuel + 1, l =>
    match skipWs l with
    | ']' :: rest => .ok (.arr [], rest)
    | _ => parseItems fuel [] l

/-- Items of a JSON array. -/
def parseItems :
    Nat → List JValue → List Char → Except String (JValue × List Char)
  | 0, _, _ => .error "Expecting value"
  | fuel + 1, acc, l =>
    match parseVal fuel l with
    | .error e => .error e
    | .ok (v, r1) =>
      match skipWs r1 with
      | ',' :: r2 => parseItems fuel (acc ++ [v]) r2
      | ']' :: r2 => .ok (.arr (acc ++ [v]), r2)
      | _ => .error "Expecting comma delimiter"

end

/-- Model of Python `json.loads`: parse one JSON document; trailing
non-whitespace is an error, as is any malformed input.  `.error` models a
raised `json.JSONDecodeError`. -/
def json_loads (s : String) : Except String JValue :=
  match parseVal (3 * s.data.length + 3) s.data with
  | .error e => .error e
  | .ok (v, rest) =>
    if (skipWs rest).isEmpty then .ok v else .error "Extra data"

/-- `databricks-app/llm_utils.py`, `_clean_json_response`: strip a
markdown code fence (checked on the raw input), then `strip()` the
result.  The two fence checks are `startswith("```json\n") and
endswith("\n```")` (slice `[8:-4]`) and `startswith("```") and
endswith("```")` (slice `[3:-3]`). -/
def clean_json_response (response_content : String) : String :=
  let clean_string :=
    if pyStartswith response_content "```json\n" && pyEndswith response_content "\n```" then
      pySlice response_content 8 4
    else if pyStartswith response_content "```" && pyEndswith response_content "```" then
      pySlice response_content 3 3
    else
      response_content
  pyStrip clean_string

/-- `backend/llm_utils.py`, the cleaning step of
`core_generate_email_logic`: the first fence check compares against the
Python literals `"```json\\n"` and `"\\n```"`, i.e. a literal backslash
followed by `n`, not a newline (slices `[9:-5]` and `[3:-3]`). -/
def backend_clean (s : String) : String :=
  let clean_string :=
    if pyStartswith s "```json\\n" && pyEndswith s "\\n```" then
      pySlice s 9 5
    else if pyStartswith s "```" && pyEndswith s "```" then
      pySlice s 3 3
    else
      s
  pyStrip clean_string

/-- The chunk vocabulary yielded by `stream_generate_email_logic` and
consumed by `stream_output_reducer`: Python dicts
`{"type": "token", "content": c}`, `{"type": "done", "trace_id": t}`
and `{"type": "error", "error": m}`. -/
inductive StreamChunk where
  | token (content : String) : StreamChunk
  | done (trace_id : Option String) : StreamChunk
  | error (message : String) : StreamChunk
deriving Repr, DecidableEq

/-- The three mutable locals of `stream_output_reducer`. -/
structure AggState where
  full_content : String
  trace_id : Option String
  error : Option String
deriving Repr, DecidableEq

/-- `full_content = ""`, `trace_id = None`, `error = None`. -/
def initState : AggState := ⟨"", none, none⟩

/-- One iteration of the chunk loop of `stream_output_reducer`. -/
def processChunk (st : AggState) : StreamChunk → AggState
  | .token content => { st with full_content := st.full_content ++ content }
  | .done t => { st with trace_id := t }
  | .error m => { st with error := some m }

/-- Python truthiness of the `error` local (`None` and `""` are falsy). -/
def pyTruthyStrOpt : Option String → Bool
  | none => false
  | some s => if s = "" then false else true

/-- A Python value of type `Optional[str]` as stored into a dict. -/
def jsonOfOptStr : Option String → JValue
  | none => .null
  | some s => .str s

/-- `databricks-app/llm_utils.py`, `stream_output_reducer`: fold the
chunks into the three locals, return `{"error": error}` when `error` is
truthy, otherwise clean and `json.loads` the buffer; on success assign
`email_json["trace_id"] = trace_id` and return it (`Except.error` models
the uncaught `TypeError` when the parsed value is not a dict), on
`JSONDecodeError` return the diagnostic dict. -/
def stream_output_reducer (chunks : List StreamChunk) : Except String JValue :=
  let st := chunks.foldl processChunk initState
  if pyTruthyStrOpt st.error then
    .ok (.obj [("error", .str (st.error.getD ""))])
  else
    match json_loads (clean_json_response st.full_content) with
    | .ok (.obj kvs) => .ok (.obj (dictSet kvs "trace_id" (jsonOfOptStr st.trace_id)))
    | .ok _ => .error "TypeError: object does not support item assignment"
    | .error e =>
      .ok (.obj [("error", .str ("Failed to parse email JSON: " ++ e)),
                 ("raw_content", .str st.full_content),
                 ("trace_id", jsonOfOptStr st.trace_id)])

/-- The token loop of `stream_generate_email_logic`: each upstream chunk
carries an optional delta content; a `None` (or absent) content yields
nothing, a string content is appended to `full_response` and immediately
yielded to the sink as a `token` chunk.  Returns the yielded chunks in
order together with the final `full_response`. -/
def stream_tokens (deltas : List (Option String)) : List StreamChunk × String :=
  deltas.foldl
    (fun acc delta =>
      match delta with
      | some token => (acc.1 ++ [.token token], acc.2 ++ token)
      | none => acc)
    ([], "")

/-- Buffer accumulated by the reducer's loop over a chunk list. -/
def aggState (chunks : List StreamChunk) : AggState :=
  chunks.foldl processChunk initState

/-- `content` of a `token` chunk. -/
def tokenContent : StreamChunk → Option String
  | .token c => some c
  | _ => none

/-- `error` message of an `error` chunk. -/
def errMsg : StreamChunk → Option String
  | .error m => some m
  | _ => none

/-- `trace_id` of a `done` chunk (itself optional). -/
def doneTrace : StreamChunk → Option (Option String)
  | .done t => some t
  | _ => none

/-- `true` exactly on `error` chunks. -/
def isErrorChunk : StreamChunk → Bool
  | .error _ => true
  | _ => false

/-- `true` exactly on `done` chunks. -/
def isDoneChunk : StreamChunk → Bool
  | .done _ => true
  | _ => false

/-- Ordered concatenation of a list of strings. -/
def strConcat : List String → String
  | [] => ""
  | s :: rest => s ++ strConcat rest

/-- `true` on `Except.ok`: the Python function returned instead of
raising. -/
def isOkE : Except String JValue → Bool
  | .ok _ => true
  | .error _ => false

/-- `true` exactly on JSON objects (Python dicts). -/
def isJObj : JValue → Bool
  | .obj _ => true
  | _ => false

/-- Field `k` of the dict returned by the reducer, when a dict with a
string at `k` was returned. -/
def resultGetStr (r : Except String JValue) (k : String) : Option String :=
  match r with
  | .ok (.obj kvs) =>
    match dictGet kvs k with
    | some (.str s) => some s
    | _ => none
  | _ => none

/-- Field `k` of the dict returned by the reducer. -/
def resultGet (r : Except String JValue) (k : String) : Option JValue :=
  match r with
  | .ok (.obj kvs) => dictGet kvs k
  | _ => none

/-- Value of the reducer's `full_content` local after the loop. -/
def aggBuffer (chunks : List StreamChunk) : String :=
  strConcat (chunks.filterMap tokenContent)

/-- Value of the reducer's `error` local after the loop, starting from
`e`: the message of the last `error` chunk, else `e`. -/
def lastErrFrom (e : Option String) : List StreamChunk → Option String
  | [] => e
  | .error m :: rest => lastErrFrom (some m) rest
  | _ :: rest => lastErrFrom e rest

/-- Value of the reducer's `trace_id` local after the loop, starting
from `t`: the `trace_id` of the last `done` chunk, else `t`. -/
def lastTraceFrom (t : Option String) : List StreamChunk → Option String
  | [] => t
  | .done t2 :: rest => lastTraceFrom t2 rest
  | _ :: rest => lastTraceFrom t rest

theorem str_empty_append (s : String) : "" ++ s = s := by
  apply String.ext
  rw [String.data_append]
  exact List.nil_append s.data

/-- The loop of `stream_output_reducer` in closed form. -/
theorem foldl_processChunk (chunks : List StreamChunk) (st : AggState) :
    chunks.foldl processChunk st
      = ⟨st.full_content ++ strConcat (chunks.filterMap tokenContent),
         lastTraceFrom st.trace_id chunks,
         lastErrFrom st.error chunks⟩ := by
  induction chunks generalizing st with
  | nil =>
    cases st
    simp [strConcat, lastTraceFrom, lastErrFrom]
  | cons c rest ih =>
    cases c with
    | token s =>
      simp [processChunk, tokenContent, strConcat, lastTraceFrom, lastErrFrom, ih,
        String.append_assoc]
    | done t =>
      simp [processChunk, tokenContent, strConcat, lastTraceFrom, lastErrFrom, ih]
    | error m =>
      simp [processChunk, tokenContent, strConcat, lastTraceFrom, lastErrFrom, ih]

theorem aggState_eq (chunks : List StreamChunk) :
    aggState chunks
      = ⟨aggBuffer chunks, lastTraceFrom none chunks, lastErrFrom none chunks⟩ := by
  rw [aggState, foldl_processChunk]
  simp [initState, aggBuffer, str_empty_append]

/-- `stream_output_reducer` in closed form over the derived state. -/
theorem stream_output_reducer_closed (chunks : List StreamChunk) :
    stream_output_reducer chunks =
      if pyTruthyStrOpt (lastErrFrom none chunks) then
        .ok (.obj [("error", .str ((lastErrFrom none chunks).getD ""))])
      else
        match json_loads (clean_json_response (aggBuffer chunks)) with
        | .ok (.obj kvs) =>
          .ok (.obj (dictSet kvs "trace_id" (jsonOfOptStr (lastTraceFrom none chunks))))
        | .ok _ => .error "TypeError: object does not support item assignment"
        | .error e =>
          .ok (.obj [("error", .str ("Failed to parse email JSON: " ++ e)),
                     ("raw_content", .str (aggBuffer chunks)),
                     ("trace_id", jsonOfOptStr (lastTraceFrom none chunks))]) := by
  have h := aggState_eq chunks
  rw [aggState] at h
  rw [stream_output_reducer, h]

theorem lastErrFrom_append (l1 l2 : List StreamChunk) (e : Option String) :
    lastErrFrom e (l1 ++ l2) = lastErrFrom (lastErrFrom e l1) l2 := by
  induction l1 generalizing e with
  | nil => simp [lastErrFrom]
  | cons c rest ih => cases c <;> simp [lastErrFrom, ih]

theorem lastErrFrom_of_no_error (l : List StreamChunk) (e : Option String)
    (h : ∀ c ∈ l, isErrorChunk c = false) : lastErrFrom e l = e := by
  induction l generalizing e with
  | nil => rfl
  | cons c rest ih =>
    cases c with
    | token s =>
      rw [show lastErrFrom e (.token s :: rest) = lastErrFrom e rest from rfl]
      exact ih e (fun c hc => h c (by simp [hc]))
    | done t =>
      rw [show lastErrFrom e (.done t :: rest) = lastErrFrom e rest from rfl]
      exact ih e (fun c hc => h c (by simp [hc]))
    | error m => exact absurd (h (.error m) (by simp)) (by simp [isErrorChunk])

theorem lastTraceFrom_append (l1 l2 : List StreamChunk) (t : Option String) :
    lastTraceFrom t (l1 ++ l2) = lastTraceFrom (lastTraceFrom t l1) l2 := by
  induction l1 generalizing t with
  | nil => simp [lastTraceFrom]
  | cons c rest ih => cases c <;> simp [lastTraceFrom, ih]

theorem lastTraceFrom_of_no_done (l : List StreamChunk) (t : Option String)
    (h : ∀ c ∈ l, isDoneChunk c = false) : lastTraceFrom t l = t := by
  induction l generalizing t with
  | nil => rfl
  | cons c rest ih =>
    cases c with
    | token s =>
      rw [show lastTraceFrom t (.token s :: rest) = lastTraceFrom t rest from rfl]
      exact ih t (fun c hc => h c (by simp [hc]))
    | done t2 => exact absurd (h (.done t2) (by simp)) (by simp [isDoneChunk])
    | error m =>
      rw [show lastTraceFrom t (.error m :: rest) = lastTraceFrom t rest from rfl]
      exact ih t (fun c hc => h c (by simp [hc]))

/-- When the final `error` local is a nonempty message, the reducer
returns exactly the one-key error dict. -/
theorem reducer_error_result (chunks : List StreamChunk) (m : String)
    (hm : lastErrFrom none chunks = some m) (hne : m ≠ "") :
    stream_output_reducer chunks = .ok (.obj [("error", .str m)]) := by
  rw [stream_output_reducer_closed, hm]
  simp [pyTruthyStrOpt, hne]

/-- When no error chunk message survives and the cleaned buffer fails to
parse, the reducer returns the diagnostic dict. -/
theorem reducer_parse_fail_result (chunks : List StreamChunk) (e : String)
    (herr : pyTruthyStrOpt (lastErrFrom none chunks) = false)
    (hfail : json_loads (clean_json_response (aggBuffer chunks)) = .error e) :
    stream_output_reducer chunks
      = .ok (.obj [("error", .str ("Failed to parse email JSON: " ++ e)),
                   ("raw_content", .str (aggBuffer chunks)),
                   ("trace_id", jsonOfOptStr (lastTraceFrom none chunks))]) := by
  rw [stream_output_reducer_closed, herr, hfail]
  simp

/-- When no error chunk message survives and the cleaned buffer parses
to a dict, the reducer returns it with `trace_id` assigned. -/
theorem reducer_success_result (chunks : List StreamChunk) (kvs : List (String × JValue))
    (herr : pyTruthyStrOpt (lastErrFrom none chunks) = false)
    (hparse : json_loads (clean_json_response (aggBuffer chunks)) = .ok (.obj kvs)) :
    stream_output_reducer chunks
      = .ok (.obj (dictSet kvs "trace_id" (jsonOfOptStr (lastTraceFrom none chunks)))) := by
  rw [stream_output_reducer_closed, herr, hparse]
  simp

theorem charsStarts_append_self (p r : List Char) : charsStarts (p ++ r) p = true := by
  induction p with
  | nil => simp [charsStarts]
  | cons a ps ih => simp [charsStarts, ih]

theorem charsStarts_extend (s p q : List Char) (h : charsStarts s (p ++ q) = true) :
    charsStarts s p = true := by
  induction p generalizing s with
  | nil => simp [charsStarts]
  | cons a ps ih =>
    cases s with
    | nil => simp [charsStarts] at h
    | cons c cs =>
      simp only [List.cons_append, charsStarts, Bool.and_eq_true, beq_iff_eq] at h ⊢
      exact ⟨h.1, ih cs h.2⟩

theorem dropWhile_cons_of_neg (x : Char) (xs : List Char) (p : Char → Bool)
    (h : p x = false) : (x :: xs).dropWhile p = x :: xs := by
  simp [List.dropWhile, h]

theorem dropWhile_append_of_all (a b : List Char) (p : Char → Bool)
    (h : ∀ c ∈ a, p c = true) : (a ++ b).dropWhile p = b.dropWhile p := by
  induction a with
  | nil => rfl
  | cons x xs ih =>
    have hx : p x = true := h x (by simp)
    rw [List.cons_append]
    rw [show ((x :: (xs ++ b)).dropWhile p) = (xs ++ b).dropWhile p from by
      simp [List.dropWhile, hx]]
    exact ih (fun c hc => h c (by simp [hc]))

theorem pyEndswith_false_of_trailing_ws (s w p : String)
    (hw : w ≠ "") (hws : ∀ c ∈ w.data, isPyWs c = true)
    (hp : ∃ t, p.data.reverse = '`' :: t) :
    pyEndswith (s ++ w) p = false := by
  obtain ⟨t, hpt⟩ := hp
  have hw' : w.data ≠ [] := by
    intro h
    exact hw (String.ext (h.trans rfl))
  obtain ⟨c, cs, hc⟩ : ∃ c cs, w.data.reverse = c :: cs := by
    cases hcc : w.data.reverse with
    | nil => exact absurd (by simpa using hcc) hw'
    | cons c cs => exact ⟨c, cs, rfl⟩
  have hcmem : c ∈ w.data := by
    have : c ∈ w.data.reverse := by rw [hc]; simp
    simpa using this
  have hcws := hws c hcmem
  have hcne : (c == '`') = false := by
    cases hb : (c == '`') with
    | false => rfl
    | true =>
      exfalso
      have hce : c = '`' := by simpa using hb
      rw [hce] at hcws
      exact absurd hcws (by decide)
  rw [pyEndswith, String.data_append, List.reverse_append, hc, hpt, List.cons_append]
  simp [charsStarts, hcne]

theorem pyStrip_append_ws (s w : String)
    (hws : ∀ c ∈ w.data, isPyWs c = true)
    (hhead : ∃ c t, s.data = c :: t ∧ isPyWs c = false)
    (hlast : ∃ c t, s.data.reverse = c :: t ∧ isPyWs c = false) :
    pyStrip (s ++ w) = s := by
  obtain ⟨c1, t1, h1, h1ws⟩ := hhead
  obtain ⟨c2, t2, h2, h2ws⟩ := hlast
  have step1 : (s ++ w).data.dropWhile isPyWs = s.data ++ w.data := by
    rw [String.data_append, h1, List.cons_append,
      dropWhile_cons_of_neg _ _ _ h1ws, ← List.cons_append, ← h1]
  have step2 : (s.data ++ w.data).reverse.dropWhile isPyWs = s.data.reverse := by
    rw [List.reverse_append,
      dropWhile_append_of_all _ _ _ (fun c hc => hws c (by simpa using hc)),
      h2, dropWhile_cons_of_neg _ _ _ h2ws]
  apply String.ext
  show (((s ++ w).data.dropWhile isPyWs).reverse.dropWhile isPyWs).reverse = s.data
  rw [step1, step2, List.reverse_reverse]

theorem pySlice_fence (X : String) :
    pySlice ("```json\n" ++ X ++ "\n```") 8 4 = X := by
  apply String.ext
  show ((("```json\n" ++ X ++ "\n```").data.drop 8).reverse.drop 4).reverse = X.data
  have hd : ("```json\n" ++ X ++ "\n```").data
      = "```json\n".data ++ (X.data ++ "\n```".data) := by
    simp [String.data_append]
  have h8 : ("```json\n".data ++ (X.data ++ "\n```".data)).drop 8
      = X.data ++ "\n```".data := by
    have h := List.drop_left "```json\n".data (X.data ++ "\n```".data)
    rwa [show "```json\n".data.length = 8 from rfl] at h
  have h4 : ("\n```".data.reverse ++ X.data.reverse).drop 4 = X.data.reverse := by
    have h := List.drop_left "\n```".data.reverse X.data.reverse
    rwa [show "\n```".data.reverse.length = 4 from rfl] at h
  rw [hd, h8, List.reverse_append, h4, List.reverse_reverse]

theorem pyStartswith_fence_json (X : String) :
    pyStartswith ("```json\n" ++ X ++ "\n```") "```json\n" = true := by
  rw [pyStartswith]
  have hd : ("```json\n" ++ X ++ "\n```").data
      = "```json\n".data ++ (X.data ++ "\n```".data) := by
    simp [String.data_append]
  rw [hd]
  exact charsStarts_append_self _ _

theorem pyEndswith_fence_json (X : String) :
    pyEndswith ("```json\n" ++ X ++ "\n```") "\n```" = true := by
  rw [pyEndswith]
  have hd : ("```json\n" ++ X ++ "\n```").data.reverse
      = "\n```".data.reverse ++ (X.data.reverse ++ "```json\n".data.reverse) := by
    simp [String.data_append, List.reverse_append]
  rw [hd]
  exact charsStarts_append_self _ _

/-- A buffer that is exactly the json-tagged fence wrapping is unwrapped
and stripped. -/
theorem clean_json_response_fenced (X : String) :
    clean_json_response ("```json\n" ++ X ++ "\n```") = pyStrip X := by
  rw [clean_json_response]
  simp only [pyStartswith_fence_json, pyEndswith_fence_json, Bool.and_self, if_true]
  rw [pySlice_fence]

theorem fence_data_head (X : String) :
    ∃ c t, ("```json\n" ++ X ++ "\n```").data = c :: t ∧ isPyWs c = false := by
  refine ⟨'`', "``json\n".data ++ (X.data ++ "\n```".data), ?_, by decide⟩
  have hd : ("```json\n" ++ X ++ "\n```").data
      = "```json\n".data ++ (X.data ++ "\n```".data) := by
    simp [String.data_append]
  rw [hd, show "```json\n".data = '`' :: "``json\n".data from rfl, List.cons_append]

theorem fence_data_last (X : String) :
    ∃ c t, ("```json\n" ++ X ++ "\n```").data.reverse = c :: t ∧ isPyWs c = false := by
  refine ⟨'`', "``\n".data ++ (X.data.reverse ++ "```json\n".data.reverse), ?_, by decide⟩
  have hd : ("```json\n" ++ X ++ "\n```").data.reverse
      = "\n```".data.reverse ++ (X.data.reverse ++ "```json\n".data.reverse) := by
    simp [String.data_append, List.reverse_append]
  rw [hd, show "\n```".data.reverse = '`' :: "``\n".data from rfl, List.cons_append]

/-- A json-tagged fence wrapping followed by trailing whitespace fails
both fence checks, so the cleanup only strips the whitespace and leaves
the fence markers in place. -/
theorem clean_json_response_fenced_trailing (X w : String)
    (hw : w ≠ "") (hws : ∀ c ∈ w.data, isPyWs c = true) :
    clean_json_response ("```json\n" ++ X ++ "\n```" ++ w)
      = "```json\n" ++ X ++ "\n```" := by
  have hend1 : pyEndswith ("```json\n" ++ X ++ "\n```" ++ w) "\n```" = false :=
    pyEndswith_false_of_trailing_ws _ w _ hw hws ⟨"``\n".data, rfl⟩
  have hend2 : pyEndswith ("```json\n" ++ X ++ "\n```" ++ w) "```" = false :=
    pyEndswith_false_of_trailing_ws _ w _ hw hws ⟨"``".data, rfl⟩
  have hstrip : pyStrip ("```json\n" ++ X ++ "\n```" ++ w)
      = "```json\n" ++ X ++ "\n```" :=
    pyStrip_append_ws _ w hws (fence_data_head X) (fence_data_last X)
  rw [clean_json_response]
  simp only [hend1, hend2, Bool.and_false, Bool.false_eq_true, if_false]
  exact hstrip

theorem pyStartswith_json_of_fence (s : String)
    (h : pyStartswith s "```" = false) : pyStartswith s "```json\n" = false := by
  cases hb : pyStartswith s "```json\n" with
  | false => rfl
  | true =>
    exfalso
    have hpre : pyStartswith s "```" = true := by
      rw [pyStartswith] at hb ⊢
      rw [show "```json\n".data = "```".data ++ "json\n".data from rfl] at hb
      exact charsStarts_extend _ _ _ hb
    rw [hpre] at h
    exact absurd h (by decide)

theorem dictSet_append_of_missing (kvs : List (String × JValue)) (k : String) (v : JValue)
    (h : kvs.find? (fun p => p.1 == k) = none) :
    dictSet kvs k v = kvs ++ [(k, v)] := by
  rw [dictSet, h]
  simp

theorem dictGet_append_missing (kvs : List (String × JValue)) (k : String) (v : JValue)
    (h : kvs.find? (fun p => p.1 == k) = none) :
    dictGet (kvs ++ [(k, v)]) k = some v := by
  rw [dictGet, List.find?_append, h]
  simp

/-- The token loop of `stream_generate_email_logic`, in closed form over
an arbitrary accumulator. -/
theorem stream_tokens_foldl (deltas : List (Option String))
    (acc : List StreamChunk × String) :
    deltas.foldl
      (fun acc delta =>
        match delta with
        | some token => (acc.1 ++ [.token token], acc.2 ++ token)
        | none => acc)
      acc
      = (acc.1 ++ (deltas.filterMap id).map StreamChunk.token,
         acc.2 ++ strConcat (deltas.filterMap id)) := by
  induction deltas generalizing acc with
  | nil => simp [strConcat, String.append_empty]
  | cons d rest ih =>
    cases d with
    | none =>
      rw [List.foldl_cons]
      rw [ih]
      simp
    | some s0 =>
      rw [List.foldl_cons]
      rw [ih]
      simp [strConcat, String.append_assoc]

/-- C1 (counterexample): on `[Token("not json")]` — a stream that closes
with no `Done` and no `Error` chunk — `stream_output_reducer` does not
return the claimed `UpstreamError` with detail
`"stream ended without terminal marker"`: it parses the buffer anyway
and returns the JSON-parse failure dict. -/
theorem C1_no_terminal_marker_counterexample :
    resultGetStr (stream_output_reducer [.token "not json"]) "error"
        = some "Failed to parse email JSON: Expecting value"
    ∧ resultGetStr (stream_output_reducer [.token "not json"]) "error"
        ≠ some "stream ended without terminal marker"
    ∧ resultGetStr (stream_output_reducer [.token "not json"]) "raw_content"
        = some "not json" :=
  ⟨rfl, by decide, rfl⟩

/-- C1 (amended): for every finite chunk sequence containing no `Done`
and no `Error` chunk whose accumulated buffer fails to parse, the
aggregator does not detect the missing terminal marker: it returns the
ordinary parse-failure dict `{"error": "Failed to parse email JSON: …",
"raw_content": buffer, "trace_id": None}`. -/
theorem C1_no_terminal_marker_amended (chunks : List StreamChunk) (e : String)
    (hterm : ∀ c ∈ chunks, isDoneChunk c = false ∧ isErrorChunk c = false)
    (hfail : json_loads (clean_json_response (aggBuffer chunks)) = .error e) :
    stream_output_reducer chunks
      = .ok (.obj [("error", .str ("Failed to parse email JSON: " ++ e)),
                   ("raw_content", .str (aggBuffer chunks)),
                   ("trace_id", .null)]) := by
  have herr : lastErrFrom none chunks = none :=
    lastErrFrom_of_no_error chunks none (fun c hc => (hterm c hc).2)
  have htr : lastTraceFrom none chunks = none :=
    lastTraceFrom_of_no_done chunks none (fun c hc => (hterm c hc).1)
  have h := reducer_parse_fail_result chunks e (by rw [herr]; rfl) hfail
  rw [h, htr]
  rfl

/-- Witness for C1 (amended) at `[Token("not json")]`. -/
theorem C1_no_terminal_marker_amended_witness :
    stream_output_reducer [.token "not json"]
      = .ok (.obj [("error", .str ("Failed to parse email JSON: " ++ "Expecting value")),
                   ("raw_content", .str (aggBuffer [.token "not json"])),
                   ("trace_id", .null)]) :=
  C1_no_terminal_marker_amended [.token "not json"] "Expecting value"
    (by decide) (by rfl)

/-- C2 (counterexample): a `Done`-terminated stream whose buffer parses
to a JSON object missing the required `body` key is returned as a
successful document with `trace_id` attached, not as a `ParseError`
failure. -/
theorem C2_missing_required_field_counterexample :
    stream_output_reducer
        [.token "\x7b\"subject_line\": \"S\"\x7d", .done (some "t")]
        = .ok (.obj [("subject_line", .str "S"), ("trace_id", .str "t")])
    ∧ resultGetStr
        (stream_output_reducer
          [.token "\x7b\"subject_line\": \"S\"\x7d", .done (some "t")]) "error"
        = none :=
  ⟨rfl, rfl⟩

/-- C2 (amended): the aggregator performs no required-field validation:
whenever the cleaned buffer parses to a JSON object — even one with no
`body` key — the object is returned as the successful result with
`trace_id` appended. -/
theorem C2_missing_required_field_amended (chunks : List StreamChunk)
    (kvs : List (String × JValue))
    (herr : pyTruthyStrOpt (lastErrFrom none chunks) = false)
    (hparse : json_loads (clean_json_response (aggBuffer chunks)) = .ok (.obj kvs))
    (hbody : kvs.find? (fun p => p.1 == "body") = none)
    (hkey : kvs.find? (fun p => p.1 == "trace_id") = none) :
    stream_output_reducer chunks
      = .ok (.obj (kvs ++ [("trace_id", jsonOfOptStr (lastTraceFrom none chunks))])) := by
  have h := reducer_success_result chunks kvs herr hparse
  rw [h, dictSet_append_of_missing kvs _ _ hkey]

/-- Witness for C2 (amended) at
`[Token('{"subject_line": "S"}'), Done("t")]`. -/
theorem C2_missing_required_field_amended_witness :
    stream_output_reducer
        [.token "\x7b\"subject_line\": \"S\"\x7d", .done (some "t")]
      = .ok (.obj ([("subject_line", JValue.str "S")]
          ++ [("trace_id", jsonOfOptStr (lastTraceFrom none
                [.token "\x7b\"subject_line\": \"S\"\x7d", .done (some "t")]))])) :=
  C2_missing_required_field_amended _ [("subject_line", JValue.str "S")]
    (by rfl) (by rfl) (by rfl) (by rfl)

/-- C3 (counterexample): on `[Token("[1, 2]"), Done(None)]` the buffer
parses to a JSON list, and attaching `trace_id` by key assignment raises
an uncaught `TypeError` — the aggregator does not return a terminal
outcome. -/
theorem C3_nonobject_raises_counterexample :
    stream_output_reducer [.token "[1, 2]", .done none]
        = .error "TypeError: object does not support item assignment"
    ∧ isOkE (stream_output_reducer [.token "[1, 2]", .done none]) = false :=
  ⟨rfl, rfl⟩

/-- C3 (amended): the aggregator returns a terminal outcome in every
case except one: it raises (an uncaught `TypeError`) exactly when no
truthy error message was recorded and the cleaned buffer parses to a
non-object JSON value (list, string, number, boolean or null). -/
theorem C3_totality_amended (chunks : List StreamChunk) :
    isOkE (stream_output_reducer chunks) = false
      ↔ pyTruthyStrOpt (lastErrFrom none chunks) = false
        ∧ ∃ v, json_loads (clean_json_response (aggBuffer chunks)) = .ok v
            ∧ isJObj v = false := by
  rw [stream_output_reducer_closed]
  cases he : pyTruthyStrOpt (lastErrFrom none chunks) with
  | true => simp [isOkE]
  | false =>
    simp only [Bool.false_eq_true, if_false]
    cases hj : json_loads (clean_json_response (aggBuffer chunks)) with
    | error e => simp [isOkE]
    | ok v => cases v <;> simp [isOkE, isJObj]

/-- C4 (counterexample): on `[Token("oops"), Error("rate limited")]` the
failure carries the detail message but no `raw_content` key at all — the
buffer accumulated so far is dropped. -/
theorem C4_error_drops_buffer_counterexample :
    stream_output_reducer [.token "oops", .error "rate limited"]
        = .ok (.obj [("error", .str "rate limited")])
    ∧ resultGet (stream_output_reducer [.token "oops", .error "rate limited"])
        "raw_content" = none :=
  ⟨rfl, rfl⟩

/-- C4 (amended): when the last `Error` chunk's message `m` is nonempty,
the aggregator returns exactly the one-key dict `{"error": m}` — the
detail is preserved but the accumulated buffer is not included. -/
theorem C4_upstream_error_amended (chunks : List StreamChunk) (m : String)
    (hm : lastErrFrom none chunks = some m) (hne : m ≠ "") :
    stream_output_reducer chunks = .ok (.obj [("error", .str m)])
    ∧ resultGet (stream_output_reducer chunks) "raw_content" = none := by
  have h := reducer_error_result chunks m hm hne
  refine ⟨h, ?_⟩
  rw [h]
  rfl

/-- Witness for C4 (amended) at `[Token("oops"), Error("rate limited")]`. -/
theorem C4_upstream_error_amended_witness :
    stream_output_reducer [.token "oops", .error "rate limited"]
        = .ok (.obj [("error", .str "rate limited")])
    ∧ resultGet (stream_output_reducer [.token "oops", .error "rate limited"])
        "raw_content" = none :=
  C4_upstream_error_amended [.token "oops", .error "rate limited"]
    "rate limited" (by rfl) (by decide)

/-- C5 (counterexample): `_clean_json_response` checks the fence before
stripping whitespace, so the fenced payload followed by one trailing
newline is not unwrapped (only trimmed) and no longer parses, while the
already-trimmed fenced buffer is unwrapped and parses. -/
theorem C5_trim_order_counterexample :
    clean_json_response ("```json\n\x7b\"body\": \"B\"\x7d\n```" ++ "\n")
        = "```json\n\x7b\"body\": \"B\"\x7d\n```"
    ∧ clean_json_response "```json\n\x7b\"body\": \"B\"\x7d\n```"
        = "\x7b\"body\": \"B\"\x7d"
    ∧ isOkE (json_loads (clean_json_response
        ("```json\n\x7b\"body\": \"B\"\x7d\n```" ++ "\n"))) = false
    ∧ json_loads (clean_json_response "```json\n\x7b\"body\": \"B\"\x7d\n```")
        = .ok (.obj [("body", .str "B")]) :=
  ⟨rfl, rfl, rfl, rfl⟩

/-- C5 (amended): fence detection is applied to the raw buffer and
trimming happens only afterwards: a json-fenced payload with nonempty
trailing whitespace fails both fence checks and is returned merely
trimmed, fences intact, whereas the already-trimmed fenced buffer is
unwrapped to the stripped inner payload. -/
theorem C5_trim_order_amended (X w : String) (hw : w ≠ "")
    (hws : ∀ c ∈ w.data, isPyWs c = true) :
    clean_json_response ("```json\n" ++ X ++ "\n```" ++ w)
        = "```json\n" ++ X ++ "\n```"
    ∧ clean_json_response ("```json\n" ++ X ++ "\n```") = pyStrip X :=
  ⟨clean_json_response_fenced_trailing X w hw hws, clean_json_response_fenced X⟩

/-- Witness for C5 (amended) with the email payload and a trailing
newline. -/
theorem C5_trim_order_amended_witness :
    clean_json_response ("```json\n" ++ "\x7b\"body\": \"B\"\x7d" ++ "\n```" ++ "\n")
        = "```json\n" ++ "\x7b\"body\": \"B\"\x7d" ++ "\n```"
    ∧ clean_json_response ("```json\n" ++ "\x7b\"body\": \"B\"\x7d" ++ "\n```")
        = pyStrip "\x7b\"body\": \"B\"\x7d" :=
  C5_trim_order_amended "\x7b\"body\": \"B\"\x7d" "\n" (by decide) (by decide)

/-- C6: the databricks-app cleanup unwraps the json-tagged fence and the
payload round-trips, but the backend variant compares against the
literal backslash-n string `"```json\\n"`, so on the same fenced payload
the generic branch strips only three backticks, leaving a `json`-prefixed
string that no longer parses (the raised `HTTPException` path). -/
theorem C6_backend_fence_literal_bug :
    json_loads (clean_json_response
        ("```json\n" ++ "\x7b\"subject_line\": \"S\", \"body\": \"B\"\x7d" ++ "\n```"))
        = .ok (.obj [("subject_line", .str "S"), ("body", .str "B")])
    ∧ json_loads "\x7b\"subject_line\": \"S\", \"body\": \"B\"\x7d"
        = .ok (.obj [("subject_line", .str "S"), ("body", .str "B")])
    ∧ backend_clean
        ("```json\n" ++ "\x7b\"subject_line\": \"S\", \"body\": \"B\"\x7d" ++ "\n```")
        = "json\n\x7b\"subject_line\": \"S\", \"body\": \"B\"\x7d"
    ∧ isOkE (json_loads (backend_clean
        ("```json\n" ++ "\x7b\"subject_line\": \"S\", \"body\": \"B\"\x7d" ++ "\n```")))
        = false :=
  ⟨rfl, rfl, rfl, rfl⟩

/-- C7 (counterexample): the reducer does not stop at the first `Error`
chunk: a second `Error` chunk overwrites the recorded message, so the
result on `[Error("a"), Error("b")]` differs from the result on the
prefix `[Error("a")]`. -/
theorem C7_not_absorbing_counterexample :
    resultGetStr (stream_output_reducer [.error "a", .error "b"]) "error" = some "b"
    ∧ resultGetStr (stream_output_reducer [.error "a"]) "error" = some "a"
    ∧ stream_output_reducer [.error "a", .error "b"]
        ≠ stream_output_reducer [.error "a"] := by
  refine ⟨rfl, rfl, fun h => ?_⟩
  have h2 := congrArg (fun r => resultGetStr r "error") h
  exact absurd h2 (by decide)

/-- C7 (amended): the reducer consumes the whole sequence; `Token` and
`Done` chunks after an `Error` chunk with nonempty message `m` (and no
later `Error` chunk) leave the result unchanged at `{"error": m}`, equal
to the result on the prefix ending at that `Error` — but later `Error`
chunks are not ignored, they overwrite the message. -/
theorem C7_after_first_error_amended (pre suf : List StreamChunk) (m : String)
    (hm : m ≠ "") (hsuf : ∀ c ∈ suf, isErrorChunk c = false) :
    stream_output_reducer (pre ++ .error m :: suf)
        = .ok (.obj [("error", .str m)])
    ∧ stream_output_reducer (pre ++ [.error m])
        = .ok (.obj [("error", .str m)]) := by
  have key : ∀ l2 : List StreamChunk, (∀ c ∈ l2, isErrorChunk c = false) →
      lastErrFrom none (pre ++ .error m :: l2) = some m := by
    intro l2 h2
    rw [lastErrFrom_append]
    rw [show lastErrFrom (lastErrFrom none pre) (.error m :: l2)
        = lastErrFrom (some m) l2 from rfl]
    exact lastErrFrom_of_no_error l2 (some m) h2
  exact ⟨reducer_error_result _ m (key suf hsuf) hm,
         reducer_error_result _ m (key [] (by intro c hc; simp at hc)) hm⟩

/-- Witness for C7 (amended): tokens and a `Done` after the error do not
change the result. -/
theorem C7_after_first_error_amended_witness :
    stream_output_reducer
        [.token "oops", .error "rate limited", .token "x", .done (some "t")]
        = .ok (.obj [("error", .str "rate limited")])
    ∧ stream_output_reducer [.token "oops", .error "rate limited"]
        = .ok (.obj [("error", .str "rate limited")]) :=
  C7_after_first_error_amended [.token "oops"] [.token "x", .done (some "t")]
    "rate limited" (by decide) (by decide)

/-- C8: for every finite sequence of `Token` chunks followed by one
`Done` chunk, the sink receives exactly the token contents, in arrival
order, and the accumulated buffer equals their ordered concatenation —
both in the generator's token loop and in the reducer's fold. -/
theorem C8_tokens_in_order (cs : List String) (t : Option String) :
    (stream_tokens (cs.map some)).1 = cs.map StreamChunk.token
    ∧ (stream_tokens (cs.map some)).2 = strConcat cs
    ∧ aggBuffer (cs.map StreamChunk.token ++ [.done t]) = strConcat cs := by
  have hfm : (cs.map some).filterMap id = cs := by
    rw [List.filterMap_map]
    exact List.filterMap_some cs
  have h := stream_tokens_foldl (cs.map some) ([], "")
  rw [hfm] at h
  have h1 : stream_tokens (cs.map some) = (cs.map StreamChunk.token, strConcat cs) := by
    rw [stream_tokens, h]
    simp [str_empty_append]
  refine ⟨by rw [h1], by rw [h1], ?_⟩
  rw [aggBuffer, List.filterMap_append, List.filterMap_map]
  have h2 : cs.filterMap (tokenContent ∘ StreamChunk.token) = cs :=
    List.filterMap_some cs
  rw [h2]
  simp [tokenContent]

/-- C9: on a trimmed buffer that is a bare JSON object — in particular
one not starting with a triple-backtick fence — the cleanup function is
the identity, hence applying it twice equals applying it once. -/
theorem C9_clean_idempotent (s : String) (kvs : List (String × JValue))
    (hjson : json_loads s = .ok (.obj kvs))
    (htrim : pyStrip s = s) (hfence : pyStartswith s "```" = false) :
    clean_json_response s = s
    ∧ clean_json_response (clean_json_response s) = clean_json_response s := by
  have h1 : pyStartswith s "```json\n" = false := pyStartswith_json_of_fence s hfence
  have hmain : clean_json_response s = s := by
    rw [clean_json_response]
    simp only [h1, hfence, Bool.false_and, Bool.false_eq_true, if_false]
    exact htrim
  refine ⟨hmain, ?_⟩
  rw [hmain]
  exact hmain

/-- Witness for C9 at the bare email-object payload. -/
theorem C9_clean_idempotent_witness :
    clean_json_response "\x7b\"subject_line\": \"S\", \"body\": \"B\"\x7d"
        = "\x7b\"subject_line\": \"S\", \"body\": \"B\"\x7d"
    ∧ clean_json_response
        (clean_json_response "\x7b\"subject_line\": \"S\", \"body\": \"B\"\x7d")
        = clean_json_response "\x7b\"subject_line\": \"S\", \"body\": \"B\"\x7d" :=
  C9_clean_idempotent _ [("subject_line", JValue.str "S"), ("body", JValue.str "B")]
    (by rfl) (by rfl) (by rfl)

/-- C10: whenever the cleaned buffer parses to a JSON object (that does
not itself carry a `trace_id` key) and no truthy error was recorded, the
returned document always contains a `trace_id` key, holding the recorded
trace id — which is the `trace_id` of the `Done` chunk when one `Done`
was seen, and `None` when no `Done` chunk appeared. -/
theorem C10_trace_id_always_attached (chunks : List StreamChunk)
    (kvs : List (String × JValue))
    (herr : pyTruthyStrOpt (lastErrFrom none chunks) = false)
    (hparse : json_loads (clean_json_response (aggBuffer chunks)) = .ok (.obj kvs))
    (hkey : kvs.find? (fun p => p.1 == "trace_id") = none) :
    resultGet (stream_output_reducer chunks) "trace_id"
        = some (jsonOfOptStr (lastTraceFrom none chunks))
    ∧ ((∀ c ∈ chunks, isDoneChunk c = false) → lastTraceFrom none chunks = none)
    ∧ (∀ pre t suf, chunks = pre ++ .done t :: suf →
        (∀ c ∈ suf, isDoneChunk c = false) → lastTraceFrom none chunks = t) := by
  refine ⟨?_, ?_, ?_⟩
  · have h := reducer_success_result chunks kvs herr hparse
    rw [h, dictSet_append_of_missing kvs _ _ hkey]
    simp only [resultGet]
    exact dictGet_append_missing kvs _ _ hkey
  · exact fun h => lastTraceFrom_of_no_done chunks none h
  · intro pre t suf hchunks hsuf
    rw [hchunks, lastTraceFrom_append]
    rw [show lastTraceFrom (lastTraceFrom none pre) (.done t :: suf)
        = lastTraceFrom t suf from rfl]
    exact lastTraceFrom_of_no_done suf t hsuf

/-- Witness for C10: the successful parse of the full email payload
carries the `Done` chunk's trace id. -/
theorem C10_trace_id_always_attached_witness :
    resultGet (stream_output_reducer
        [.token "\x7b\"subject_line\": \"S\", \"body\": \"B\"\x7d", .done (some "tr-1")])
        "trace_id"
      = some (JValue.str "tr-1") :=
  ((C10_trace_id_always_attached
      [.token "\x7b\"subject_line\": \"S\", \"body\": \"B\"\x7d", .done (some "tr-1")]
      [("subject_line", JValue.str "S"), ("body", JValue.str "B")]
      (by rfl) (by rfl) (by rfl)).1).trans rfl
